import Mathlib

/-!
Verification of the array wire-format translation layer of a
prediction-serving microservice wrapper.

The development shallowly embeds the codec core:

* `seldon_microservice/common.py`: the request validator
  (`sanity_check_request`), the REST codec (`rest_datadef_to_array`,
  `array_to_rest_datadef`), and the protobuf-style codec
  (`grpc_datadef_to_array`, `array_to_grpc_datadef`,
  `array_to_list_value`);
* `seldon_microservice/tester_flatbuffers.py`: the binary framed codec
  (`NumpyArrayToSeldonRPC`, `SeldonRPCToNumpyArray`).

Numeric array values are carried through every codec without arithmetic,
so the embedding is polymorphic in the scalar type `α` (the source fixes
it to float64; no transform is ever applied to a value, hence every
statement below is exact for any carrier).

The flatbuffers library and the generated schema modules (`fbs/*`,
`seldon_flatbuffers.py`) are not part of the sources under inspection;
where their behaviour matters it is modelled from the spec, and each such
definition carries a doc comment saying so.
-/

/-- An in-memory dense numeric array, as produced by `np.array(...)`:
an explicit shape plus the row-major flat sequence of values.
Mirrors the canonical Array model of the source (numpy `ndarray`). -/
structure NpArray (α : Type) where
  shape : List Nat
  values : List α
deriving DecidableEq, Repr

/-- `product(shape)`: the number of elements a shape calls for.
`listProd [] = 1` matches numpy's 0-d arrays holding one scalar. -/
def listProd (shape : List Nat) : Nat :=
  shape.foldr (fun d acc => d * acc) 1

/-- Error kinds raised by the codec core.  In the source these are
distinct Python exceptions: `shapeMismatch` is numpy's `ValueError` from
`reshape` (the spec's `ShapeMismatchError`); `jaggedNDArray` is the
failure of `np.array` on a non-rectangular nested list;
`typeErrorIter0d` is the `TypeError` from iterating a 0-d array in
`array_to_list_value`; `unsupportedProtocolVersion` and
`unsupportedDataKind` are the two `FlatbuffersInvalidMessage` raises of
the binary reader; `nameErrorNamesOffset` is the Python `NameError` from
using the conditionally-assigned `namesOffset` in the binary writer. -/
inductive CodecError where
  | shapeMismatch
  | jaggedNDArray
  | typeErrorIter0d
  | unsupportedProtocolVersion (p : Int)
  | unsupportedDataKind (k : Int)
  | nameErrorNamesOffset
deriving DecidableEq, Repr

/-- `np.array(values).reshape(shape)` on a flat value list: succeeds with
the reshaped array exactly when the element count matches, else raises
numpy's size-mismatch `ValueError` (the spec's `ShapeMismatchError`). -/
def npReshape {α : Type} (values : List α) (shape : List Nat) :
    Except CodecError (NpArray α) :=
  if listProd shape = values.length then
    .ok ⟨shape, values⟩
  else
    .error .shapeMismatch

/-! ## Request validator (`common.sanity_check_request`) -/

/-- A JSON-like untyped structured value, the input domain of the
request validator (`json.loads` output in the source). -/
inductive JValue where
  | null
  | bool (b : Bool)
  | num (n : Int)
  | str (s : String)
  | arr (l : List JValue)
  | obj (kvs : List (String × JValue))

/-- Python `dict.get(key)` on a parsed-JSON dictionary: a missing key
gives Python `None`, which coincides with the value JSON `null` parses
to, so both are represented by `JValue.null`. -/
def jGet (kvs : List (String × JValue)) (key : String) : JValue :=
  (kvs.lookup key).getD .null

/-- The validation failures of `sanity_check_request`, in the source all
raised as `SeldonMicroserviceException` with the messages given by
`validationMessage`. -/
inductive ValidationError where
  | notARecord
  | missingData
  | dataNotRecord
  | noVariantPresent
deriving DecidableEq, Repr

/-- The exception message the source attaches to each validation
failure. -/
def validationMessage : ValidationError → String
  | .notARecord => "Request must be a dictionary"
  | .missingData => "Request must contain Default Data"
  | .dataNotRecord => "Data must be a dictionary"
  | .noVariantPresent => "Data dictionary has no 'ndarray' or 'tensor' keyword."

/-- `common.sanity_check_request`: (a) the request must be a dictionary;
(b) `req.get("data")` must not be `None`; (c) `data` must be a
dictionary; (d) `data` must have an `ndarray` or a `tensor` key.  The
checks run in this order and the first failure is raised. -/
def sanity_check_request (req : JValue) : Except ValidationError Unit :=
  match req with
  | .obj kvs =>
    match jGet kvs "data" with
    | .null => .error .missingData
    | .obj data =>
      match jGet data "ndarray", jGet data "tensor" with
      | .null, .null => .error .noVariantPresent
      | _, _ => .ok ()
    | _ => .error .dataNotRecord
  | _ => .error .notARecord

/-! ## Nested (NDArray) representation -/

/-- A recursively nested sequence of scalars: the `NDArray` wire form.
`np.ndarray.tolist()` produces such a tree, and `np.array(nested)`
consumes one. -/
inductive Nested (α : Type) where
  | leaf (v : α)
  | node (l : List (Nested α))

/-- Split a flat row-major value list into `d` consecutive chunks of `k`
elements each: the sub-arrays along the outermost axis of an array of
shape `d :: rest` with `k = listProd rest`. -/
def takeChunks {α : Type} (d k : Nat) (l : List α) : List (List α) :=
  match d with
  | 0 => []
  | n + 1 => l.take k :: takeChunks n k (l.drop k)

/-- `np.ndarray.tolist()`: re-nest the row-major flat values of an array
according to its shape (a 0-d array yields its single scalar). -/
def np_tolist {α : Type} (shape : List Nat) (values : List α) : Nested α :=
  match shape with
  | [] =>
    match values with
    | v :: _ => .leaf v
    | [] => .node []
  | d :: rest => .node ((takeChunks d (listProd rest) values).map (np_tolist rest))

mutual

/-- The shape `np.array` infers for a nested list: `none` when the
nesting is jagged (non-rectangular). -/
def nestedShape {α : Type} : Nested α → Option (List Nat)
  | .leaf _ => some []
  | .node l =>
    match nestedShapeList l with
    | none => none
    | some [] => some [0]
    | some (s :: ss) => if ss.all (· == s) then some ((ss.length + 1) :: s) else none

/-- Shapes of the members of a nested list, `none` on the first jagged
member. -/
def nestedShapeList {α : Type} : List (Nested α) → Option (List (List Nat))
  | [] => some []
  | x :: xs =>
    match nestedShape x, nestedShapeList xs with
    | some s, some ss => some (s :: ss)
    | _, _ => none

end

mutual

/-- Row-major flattening of a nested list (the value sequence `np.array`
stores for it). -/
def nestedFlatten {α : Type} : Nested α → List α
  | .leaf v => [v]
  | .node l => nestedFlattenList l

/-- Concatenated row-major flattening of a list of nested lists. -/
def nestedFlattenList {α : Type} : List (Nested α) → List α
  | [] => []
  | x :: xs => nestedFlatten x ++ nestedFlattenList xs

end

/-- `np.array(nested)`: build a dense array from a nested list, failing
when the nesting is not rectangular. -/
def npArrayOfNested {α : Type} (nd : Nested α) : Except CodecError (NpArray α) :=
  match nestedShape nd with
  | some s => .ok ⟨s, nestedFlatten nd⟩
  | none => .error .jaggedNDArray

/-! ## REST codec (`common.rest_datadef_to_array`, `common.array_to_rest_datadef`) -/

/-- The `tensor` member of a REST data dictionary:
`{"shape": [...], "values": [...]}` (also reused for the protobuf-style
`Tensor` message and the flatbuffers `Tensor` table, which carry the
same two fields). -/
structure TensorData (α : Type) where
  shape : List Nat
  values : List α
deriving DecidableEq, Repr

/-- The REST `data` dictionary: optional `names`, `tensor` and `ndarray`
keys.  A key mapped to JSON `null` behaves like a missing key under
`dict.get`, so both are `none`. -/
structure RestDataDef (α : Type) where
  names : List String
  tensor : Option (TensorData α)
  ndarray : Option (Nested α)

/-- `common.rest_datadef_to_array`: `tensor` wins if present (reshape of
its flat values by its shape), else `ndarray` (dense array from the
nested list), else the empty `np.array([])` of shape `(0,)`. -/
def rest_datadef_to_array {α : Type} (datadef : RestDataDef α) :
    Except CodecError (NpArray α) :=
  match datadef.tensor with
  | some t => npReshape t.values t.shape
  | none =>
    match datadef.ndarray with
    | some nd => npArrayOfNested nd
    | none => .ok ⟨[0], []⟩

/-- `common.array_to_rest_datadef`: emit a `tensor` member (shape +
`ravel().tolist()`) when the original datadef had a `tensor` key, else an
`ndarray` member (`array.tolist()`) — both the explicit `ndarray` branch
and the final fallback of the source produce the same `ndarray` output.
`names` is carried through unchanged. -/
def array_to_rest_datadef {α : Type} (array : NpArray α) (names : List String)
    (original_datadef : RestDataDef α) : RestDataDef α :=
  if original_datadef.tensor.isSome then
    { names := names, tensor := some ⟨array.shape, array.values⟩, ndarray := none }
  else if original_datadef.ndarray.isSome then
    { names := names, tensor := none,
      ndarray := some (np_tolist array.shape array.values) }
  else
    { names := names, tensor := none,
      ndarray := some (np_tolist array.shape array.values) }

/-! ## Protobuf-style codec (`common.array_to_list_value`,
`common.grpc_datadef_to_array`, `common.array_to_grpc_datadef`) -/

/-- A member of a protobuf `ListValue`: either a scalar `Value` or a
nested `ListValue` (what `lv.add_list()` appends). -/
inductive PbValue (α : Type) where
  | num (v : α)
  | lst (l : List (PbValue α))

/-- A protobuf `ListValue`, as the source's recursive encoder fills it:
an ordered sequence of scalar or list members. -/
abbrev ListValue (α : Type) := List (PbValue α)

/-- The recursive body of `common.array_to_list_value` (the spec's
`nestedListOf`): a rank-1 array extends the list with its scalar values;
otherwise each sub-array along the outermost axis is appended as a
nested list holding its recursive encoding.  The `[]` branch is
unreachable from `array_to_list_value`: the recursion stops at rank 1,
and the wrapper rejects rank 0 before calling it. -/
def nestedListOf {α : Type} (shape : List Nat) (values : List α) : ListValue α :=
  match shape with
  | [] => []
  | [_] => values.map PbValue.num
  | d :: rest =>
    (takeChunks d (listProd rest) values).map
      (fun c => PbValue.lst (nestedListOf rest c))

/-- `common.array_to_list_value`: if the array has rank 1, extend the
list with its scalar values; otherwise append, for each sub-array along
the outermost axis, a nested list holding its recursive encoding.
Iterating a 0-d array raises `TypeError` in the source. -/
def array_to_list_value {α : Type} (shape : List Nat) (values : List α) :
    Except CodecError (ListValue α) :=
  match shape with
  | [] => .error .typeErrorIter0d
  | _ => .ok (nestedListOf shape values)

mutual

/-- Nesting depth of a `ListValue` member: scalars are depth 0, a nested
list is one deeper than its deepest member. -/
def pbDepth {α : Type} : PbValue α → Nat
  | .num _ => 0
  | .lst l => 1 + maxDepthList l

/-- Greatest nesting depth among the members of a `ListValue`
(0 when there are no members). -/
def maxDepthList {α : Type} : List (PbValue α) → Nat
  | [] => 0
  | x :: xs => max (pbDepth x) (maxDepthList xs)

end

/-- Nesting depth of a whole `ListValue` payload: the top-level list is
one level, plus the depth of its deepest member. -/
def lvDepth {α : Type} (lv : ListValue α) : Nat :=
  1 + maxDepthList lv

mutual

/-- Viewing a `ListValue` member as a nested sequence (how `np.array`
iterates a protobuf `ListValue`). -/
def pbToNested {α : Type} : PbValue α → Nested α
  | .num v => .leaf v
  | .lst l => .node (pbToNestedList l)

/-- Member-wise view of a list of `ListValue` members as nested
sequences. -/
def pbToNestedList {α : Type} : List (PbValue α) → List (Nested α)
  | [] => []
  | x :: xs => pbToNested x :: pbToNestedList xs

end

/-- `np.array(datadef.ndarray)` on a protobuf `ListValue`: numpy
iterates it exactly like a nested list. -/
def npArrayOfListValue {α : Type} (lv : ListValue α) : Except CodecError (NpArray α) :=
  npArrayOfNested (.node (pbToNestedList lv))

/-- The `data_oneof` union of the protobuf `DefaultData` message:
`tensor` or `ndarray` (`WhichOneof` reports which member is set). -/
inductive GrpcDataOneof (α : Type) where
  | tensor (t : TensorData α)
  | ndarray (lv : ListValue α)

/-- The protobuf `DefaultData` message: repeated `names` plus the
`data_oneof` union, which may be unset. -/
structure GrpcDefaultData (α : Type) where
  names : List String
  data_oneof : Option (GrpcDataOneof α)

/-- `common.grpc_datadef_to_array`: dispatch on `WhichOneof("data_oneof")`
— `tensor` reshapes flat values by the explicit shape, `ndarray` builds
a dense array from the nested list, unset yields `np.array([])` of
shape `(0,)`. -/
def grpc_datadef_to_array {α : Type} (datadef : GrpcDefaultData α) :
    Except CodecError (NpArray α) :=
  match datadef.data_oneof with
  | some (.tensor t) => npReshape t.values t.shape
  | some (.ndarray lv) => npArrayOfListValue lv
  | none => .ok ⟨[0], []⟩

/-- `common.array_to_grpc_datadef`: `"tensor"` hint emits a `Tensor`
message (explicit shape + `ravel().tolist()` values); `"ndarray"` and
any other hint emit an `ndarray` member via `array_to_list_value` (whose
0-d `TypeError` propagates). -/
def array_to_grpc_datadef {α : Type} (array : NpArray α) (names : List String)
    (data_type : String) : Except CodecError (GrpcDefaultData α) :=
  if data_type = "tensor" then
    .ok { names := names, data_oneof := some (.tensor ⟨array.shape, array.values⟩) }
  else if data_type = "ndarray" then
    (array_to_list_value array.shape array.values).map
      (fun lv => { names := names, data_oneof := some (.ndarray lv) })
  else
    (array_to_list_value array.shape array.values).map
      (fun lv => { names := names, data_oneof := some (.ndarray lv) })

/-! ## Binary framed codec (`tester_flatbuffers.py`)

The builder/reader primitives of the flatbuffers library and the
generated schema modules are not among the sources under inspection, so
their semantics is modelled from the spec's construction discipline:
the buffer grows downward, each `Prepend` places the new element in
front of the previously written ones, and after `EndVector` element 0 of
the finished vector is the last element prepended.  Tables are modelled
symbolically as records of their field values. -/

/-- The elements of `xs` in the order the writer's loop prepends them:
`for i in reversed(range(len(xs))): builder.Prepend(xs[i])`, i.e. index
`len(xs) - 1` first, index `0` last. -/
def prependTrace {α : Type} (xs : List α) : List α :=
  ((List.finRange xs.length).reverse).map xs.get

/-- Modelled from the spec: the vector `EndVector` finishes after a run
of prepends.  Each prepend puts its element in front of the current
contents (the buffer grows downward), so element 0 of the finished
vector is the last element prepended. -/
def vecFromPrepends {α : Type} (trace : List α) : List α :=
  trace.foldl (fun v x => x :: v) []

/-- The vector the writer builds from `xs`: start, prepend the elements
in reverse index order, end. -/
def buildVector {α : Type} (xs : List α) : List α :=
  vecFromPrepends (prependTrace xs)

/-- Modelled from the spec: numeric tag of `SeldonProtocolVersion.V1` in
the generated schema module (not under the inspected sources; no claim
depends on the exact value). -/
def SeldonProtocolVersionV1 : Int := 1

/-- Modelled from the spec: numeric tag of the `Data.DefaultData` union
member in the generated schema module. -/
def DataDefaultData : Int := 1

/-- Modelled from the spec: numeric tag of `StatusValue.SUCCESS` in the
generated schema module. -/
def StatusValueSUCCESS : Int := 0

/-- Modelled from the spec: numeric tag of `SeldonMethod.PREDICT` in the
generated schema module. -/
def SeldonMethodPREDICT : Int := 0

/-- Modelled from the spec: numeric tag of the
`SeldonPayload.SeldonMessage` union member in the generated schema
module. -/
def SeldonPayloadSeldonMessage : Int := 1

/-- The flatbuffers `Status` table: `code` and `status` (status value
tag) fields. -/
structure StatusT where
  code : Int
  statusValue : Int
deriving DecidableEq, Repr

/-- The flatbuffers `DefaultData` table: the names vector and the
`Tensor` table (shape vector + values vector). -/
structure DefaultDataT (α : Type) where
  names : List String
  tensor : TensorData α
deriving DecidableEq, Repr

/-- The flatbuffers `SeldonMessage` table: protocol tag, `Status` table,
data-kind tag and `DefaultData` table. -/
structure SeldonMessageT (α : Type) where
  protocol : Int
  status : StatusT
  dataType : Int
  data : DefaultDataT α
deriving DecidableEq, Repr

/-- The flatbuffers `SeldonRPC` root table: method tag, payload-kind tag
and the `SeldonMessage` table. -/
structure SeldonRPCT (α : Type) where
  method : Int
  messageType : Int
  message : SeldonMessageT α
deriving DecidableEq, Repr

/-- Modelled from the spec: byte budget of a string in the buffer
(length field, bytes, terminator; alignment padding not modelled). -/
def stringByteSize (s : String) : Nat :=
  4 + s.length + 1

/-- Modelled from the spec: the total byte length of the finished
message.  The exact value is fixed by the flatbuffers layout of the
third-party library; it is modelled as a definite function of the
content sizes (length fields, 4-byte offsets and int32s, 8-byte
float64s, a fixed table/vtable budget).  No claim depends on the exact
value, only on the size prefix holding whatever the length is. -/
def msgByteSize {α : Type} (r : SeldonRPCT α) : Nat :=
  let d := r.message.data
  60 + (4 + 4 * d.names.length + (d.names.map stringByteSize).sum)
     + (4 + 4 * d.tensor.shape.length)
     + (4 + 8 * d.tensor.values.length)

/-- The four little-endian bytes of `n % 2^32`. -/
def leBytes4 (n : Nat) : List Nat :=
  [n % 256, n / 256 % 256, n / 65536 % 256, n / 16777216 % 256]

/-- Read back a 4-byte little-endian quantity. -/
def fromLEBytes4 : List Nat → Nat
  | [a, b, c, d] => a + 256 * b + 65536 * c + 16777216 * d
  | _ => 0

/-- The writer's finished output: the 4-byte little-endian size header
followed by the message bytes, the latter kept symbolic as the root
table plus its byte length. -/
structure FBOutput (α : Type) where
  sizeHeader : List Nat
  msgLen : Nat
  msg : SeldonRPCT α
deriving DecidableEq, Repr

/-- Modelled from the spec: `builder.FinishSizePrefixed(root)` followed
by `builder.Output()` — a 4-byte little-endian size header holding the
total message length, then the message bytes. -/
def finishWithSizeHeader {α : Type} (r : SeldonRPCT α) : FBOutput α :=
  { sizeHeader := leBytes4 (msgByteSize r), msgLen := msgByteSize r, msg := r }

/-- `tester_flatbuffers.NumpyArrayToSeldonRPC`: build the names vector
(only when `names` is non-empty), the shape vector and the flattened
values vector — each by prepending the elements in reverse index order —
then assemble `Tensor`, `DefaultData` (which uses `namesOffset`
unconditionally: a Python `NameError` when `names` was empty), `Status`
(code 200, SUCCESS), `SeldonMessage` (protocol V1, data kind
DefaultData) and the `SeldonRPC` root (method PREDICT, payload kind
SeldonMessage), and finish the buffer with the size header. -/
def NumpyArrayToSeldonRPC {α : Type} (arr : NpArray α) (names : List String) :
    Except CodecError (FBOutput α) :=
  let namesOffset : Option (List String) :=
    if names.length > 0 then some (buildVector names) else none
  let sOffset : List Nat := buildVector arr.shape
  let flatValues : List α := buildVector arr.values
  let tensor : TensorData α := { shape := sOffset, values := flatValues }
  match namesOffset with
  | none => .error .nameErrorNamesOffset
  | some namesVec =>
    let defData : DefaultDataT α := { names := namesVec, tensor := tensor }
    let status : StatusT := { code := 200, statusValue := StatusValueSUCCESS }
    let seldonMessage : SeldonMessageT α :=
      { protocol := SeldonProtocolVersionV1, status := status,
        dataType := DataDefaultData, data := defData }
    let seldonRPC : SeldonRPCT α :=
      { method := SeldonMethodPREDICT, messageType := SeldonPayloadSeldonMessage,
        message := seldonMessage }
    .ok (finishWithSizeHeader seldonRPC)

/-- Modelled from the spec: the reader's
`SeldonMessage.GetRootAsSeldonMessage(data, 0)` — parse the root
`SeldonMessage` out of the framed buffer (handling the size header and
envelope). -/
def GetRootAsSeldonMessage {α : Type} (data : FBOutput α) : SeldonMessageT α :=
  data.msg.message

/-- `tester_flatbuffers.SeldonRPCToNumpyArray`: parse the root
`SeldonMessage`; fail unless the protocol tag is V1, then fail unless
the data-kind tag is DefaultData; otherwise read the names vector in
index order, read the shape vector, and reshape the values vector by the
shape. -/
def SeldonRPCToNumpyArray {α : Type} (data : FBOutput α) :
    Except CodecError (NpArray α × List String) :=
  let seldon_msg := GetRootAsSeldonMessage data
  if seldon_msg.protocol = SeldonProtocolVersionV1 then
    if seldon_msg.dataType = DataDefaultData then
      let defData := seldon_msg.data
      let names := defData.names
      let tensor := defData.tensor
      let shape := tensor.shape
      match npReshape tensor.values shape with
      | .ok arr => .ok (arr, names)
      | .error e => .error e
    else
      .error (.unsupportedDataKind seldon_msg.dataType)
  else
    .error (.unsupportedProtocolVersion seldon_msg.protocol)

/-! ## Helper lemmas -/

/-- The writer's prepend loop visits the elements in reverse index
order. -/
theorem prependTrace_eq_reverse {α : Type} (xs : List α) :
    prependTrace xs = xs.reverse := by
  unfold prependTrace
  rw [List.map_reverse, List.finRange_map_get]

/-- A run of prepends leaves the elements in the reverse of the order
they were prepended. -/
theorem vecFromPrepends_eq_reverse {α : Type} (trace : List α) :
    vecFromPrepends trace = trace.reverse := by
  have h : ∀ (t acc : List α), t.foldl (fun v x => x :: v) acc = t.reverse ++ acc := by
    intro t
    induction t with
    | nil => intro acc; simp
    | cons x xs ih => intro acc; simp [List.foldl_cons, ih]
  unfold vecFromPrepends
  rw [h trace []]
  simp

/-- Prepending the elements in reverse index order reproduces the
logical order: the finished vector reads back as the input. -/
theorem buildVector_eq {α : Type} (xs : List α) : buildVector xs = xs := by
  unfold buildVector
  rw [prependTrace_eq_reverse, vecFromPrepends_eq_reverse, List.reverse_reverse]

/-- The size header is well-formed: four bytes that decode back to the
length, for any length below `2^32`. -/
theorem fromLEBytes4_leBytes4 (n : Nat) (h : n < 4294967296) :
    fromLEBytes4 (leBytes4 n) = n := by
  simp only [leBytes4, fromLEBytes4]
  omega

/-- `takeChunks` always yields one chunk per requested sub-array. -/
theorem takeChunks_length {α : Type} (d k : Nat) (l : List α) :
    (takeChunks d k l).length = d := by
  induction d generalizing l with
  | zero => simp [takeChunks]
  | succ n ih => simp [takeChunks, ih]

/-- A rank-1 array encodes as the flat list of its scalar values. -/
theorem array_to_list_value_rank1 {α : Type} (n : Nat) (values : List α) :
    array_to_list_value [n] values = .ok (values.map PbValue.num) := rfl

/-- Scalar members contribute no nesting depth. -/
theorem maxDepthList_map_num {α : Type} (values : List α) :
    maxDepthList (values.map PbValue.num) = 0 := by
  induction values with
  | nil => simp [maxDepthList]
  | cons v vs ih => simp [maxDepthList, pbDepth, ih]

/-- The encoder succeeds on every array of rank at least 1, producing
the recursive nested-list encoding. -/
theorem array_to_list_value_eq_ok {α : Type} (shape : List Nat) (values : List α)
    (h : shape ≠ []) :
    array_to_list_value shape values = .ok (nestedListOf shape values) := by
  cases shape with
  | nil => exact absurd rfl h
  | cons d rest => rfl

/-- A non-empty list of nested-list members of equal payload depth `k`
has maximal member depth `k`. -/
theorem maxDepthList_map_lst {α : Type} (k : Nat) :
    ∀ (subs : List (ListValue α)), subs ≠ [] → (∀ y ∈ subs, lvDepth y = k) →
      maxDepthList (subs.map PbValue.lst) = k := by
  intro subs
  induction subs with
  | nil => intro h; exact absurd rfl h
  | cons x xs ih =>
    intro _ hall
    have hx : pbDepth (PbValue.lst x) = k := by
      have := hall x (by simp)
      simpa [pbDepth, lvDepth] using this
    cases xs with
    | nil => simp [maxDepthList, hx]
    | cons z zs =>
      have hxs := ih (by simp) (fun y hy => hall y (by simp [hy]))
      simp only [List.map_cons, maxDepthList] at hxs ⊢
      omega

/-- For every rank-1-or-higher shape whose dimensions are all positive,
the nesting depth of the recursive encoding equals the rank, whatever
the value list. -/
theorem nestedListOf_depth {α : Type} :
    ∀ (shape : List Nat), shape ≠ [] → (∀ d ∈ shape, 0 < d) →
      ∀ (values : List α), lvDepth (nestedListOf shape values) = shape.length := by
  intro shape
  induction shape with
  | nil => intro h; exact absurd rfl h
  | cons d rest ih =>
    intro _ hpos values
    cases rest with
    | nil => simp [nestedListOf, lvDepth, maxDepthList_map_num]
    | cons e rest' =>
      have hrestpos : ∀ x ∈ e :: rest', 0 < x := fun x hx => hpos x (by simp [hx])
      have hd : 0 < d := hpos d (by simp)
      have hmap :
          nestedListOf (d :: e :: rest') values =
            ((takeChunks d (listProd (e :: rest')) values).map
              (nestedListOf (e :: rest'))).map PbValue.lst := by
        simp [nestedListOf, List.map_map, Function.comp]
      have hsubsne :
          (takeChunks d (listProd (e :: rest')) values).map
            (nestedListOf (e :: rest')) ≠ [] := by
        intro hnil
        have := congrArg List.length hnil
        simp [takeChunks_length] at this
        omega
      have hall : ∀ y ∈ (takeChunks d (listProd (e :: rest')) values).map
          (nestedListOf (e :: rest')), lvDepth y = (e :: rest').length := by
        intro y hy
        obtain ⟨c, _, hc⟩ := List.mem_map.mp hy
        rw [← hc]
        exact ih (by simp) hrestpos c
      rw [hmap, lvDepth, maxDepthList_map_lst ((e :: rest').length) _ hsubsne hall]
      simp
      omega

/-! ## Claim theorems -/

/-- C5: the request validator performs its checks in order — a
non-record top-level value fails with `NotARecord`; a record without a
non-null `data` member fails with `MissingData`; a non-record `data`
member fails with `DataNotRecord`; a `data` record with neither an
`ndarray` nor a `tensor` key fails with `NoVariantPresent` — and in
particular `{"data": {"foo": 1}}` fails with `NoVariantPresent`,
`{"notdata": {}}` fails with `MissingData`, and `"not a record"` fails
with `NotARecord`. -/
theorem validator_checks_in_order :
    (∀ req : JValue, (∀ kvs, req ≠ .obj kvs) →
        sanity_check_request req = .error .notARecord)
    ∧ (∀ kvs, jGet kvs "data" = .null →
        sanity_check_request (.obj kvs) = .error .missingData)
    ∧ (∀ kvs, jGet kvs "data" ≠ .null → (∀ l, jGet kvs "data" ≠ .obj l) →
        sanity_check_request (.obj kvs) = .error .dataNotRecord)
    ∧ (∀ kvs data, jGet kvs "data" = .obj data →
        jGet data "ndarray" = .null → jGet data "tensor" = .null →
        sanity_check_request (.obj kvs) = .error .noVariantPresent)
    ∧ sanity_check_request
        (.obj [("data", .obj [("foo", .num 1)])]) = .error .noVariantPresent
    ∧ sanity_check_request (.obj [("notdata", .obj [])]) = .error .missingData
    ∧ sanity_check_request (.str "not a record") = .error .notARecord := by
  refine ⟨?_, ?_, ?_, ?_, rfl, rfl, rfl⟩
  · intro req h
    cases req with
    | obj kvs => exact absurd rfl (h kvs)
    | _ => rfl
  · intro kvs h
    simp only [sanity_check_request]
    rw [h]
  · intro kvs h1 h2
    cases hv : jGet kvs "data" with
    | null => exact absurd hv h1
    | obj l => exact absurd hv (h2 l)
    | _ => simp only [sanity_check_request]
  · intro kvs data h hnd ht
    simp only [sanity_check_request]
    rw [h]
    simp only []
    rw [hnd, ht]

/-- Witness for C5: the validator theorem applied at concrete inputs for
each check. -/
theorem validator_checks_in_order_witness :
    sanity_check_request (.num 3) = .error .notARecord ∧
    sanity_check_request (.obj [("x", .num 1)]) = .error .missingData ∧
    sanity_check_request (.obj [("data", .num 1)]) = .error .dataNotRecord ∧
    sanity_check_request (.obj [("data", .obj [("foo", .num 1)])]) =
      .error .noVariantPresent :=
  ⟨validator_checks_in_order.1 (.num 3) (fun _ h => JValue.noConfusion h),
   validator_checks_in_order.2.1 [("x", .num 1)] rfl,
   validator_checks_in_order.2.2.1 [("data", .num 1)]
     (fun h => JValue.noConfusion h) (fun _ h => JValue.noConfusion h),
   validator_checks_in_order.2.2.2.1 [("data", .obj [("foo", .num 1)])]
     [("foo", .num 1)] rfl rfl rfl⟩

/-- C3: REST Tensor round trip — for the array of shape `[2,3]` with
values `[1,2,3,4,5,6]`, any names, and any original datadef carrying the
`tensor` variant hint, converting to a REST payload and back yields the
same array. -/
theorem rest_tensor_roundtrip (names : List String) (orig : RestDataDef Int)
    (h : orig.tensor.isSome) :
    rest_datadef_to_array
      (array_to_rest_datadef ⟨[2, 3], [1, 2, 3, 4, 5, 6]⟩ names orig) =
    .ok ⟨[2, 3], [1, 2, 3, 4, 5, 6]⟩ := by
  simp [array_to_rest_datadef, h, rest_datadef_to_array, npReshape, listProd]

/-- Witness for C3: the round trip at names `["a","b"]` and an original
datadef whose `tensor` member is present. -/
theorem rest_tensor_roundtrip_witness :
    rest_datadef_to_array
      (array_to_rest_datadef (⟨[2, 3], [1, 2, 3, 4, 5, 6]⟩ : NpArray Int)
        ["a", "b"] ⟨[], some ⟨[], []⟩, none⟩) =
    .ok ⟨[2, 3], [1, 2, 3, 4, 5, 6]⟩ :=
  rest_tensor_roundtrip ["a", "b"] ⟨[], some ⟨[], []⟩, none⟩ rfl

/-- C6: shape invariant — whenever `product(shape) ≠ len(values)`,
converting a Tensor-variant payload to an array fails with the shape
mismatch error (numpy's reshape `ValueError`), in both the REST codec
and the protobuf-style codec; no truncated or padded array is ever
returned. -/
theorem shape_mismatch_fails {α : Type} (shape : List Nat) (values : List α)
    (h : listProd shape ≠ values.length) :
    (∀ names ndarray,
      rest_datadef_to_array ⟨names, some ⟨shape, values⟩, ndarray⟩ =
        .error .shapeMismatch)
    ∧ (∀ names,
      grpc_datadef_to_array ⟨names, some (.tensor ⟨shape, values⟩)⟩ =
        .error .shapeMismatch) := by
  constructor
  · intro names ndarray
    simp [rest_datadef_to_array, npReshape, h]
  · intro names
    simp [grpc_datadef_to_array, npReshape, h]

/-- Witness for C6: shape `[2,2]` with only three values fails with the
shape mismatch error on both paths. -/
theorem shape_mismatch_fails_witness :
    rest_datadef_to_array
      (⟨[], some ⟨[2, 2], [1, 2, 3]⟩, none⟩ : RestDataDef Int) =
      .error .shapeMismatch ∧
    grpc_datadef_to_array
      (⟨[], some (.tensor ⟨[2, 2], [1, 2, 3]⟩)⟩ : GrpcDefaultData Int) =
      .error .shapeMismatch :=
  ⟨(shape_mismatch_fails [2, 2] ([1, 2, 3] : List Int) (by decide)).1 [] none,
   (shape_mismatch_fails [2, 2] ([1, 2, 3] : List Int) (by decide)).2 []⟩

/-- Counterexample for C4 as stated: on the rank-0 array (shape `[]`,
one value) the protobuf-style codec's `ndarray` path does not emit an
NDArray-variant payload — `array_to_list_value` iterates a 0-d array and
raises `TypeError`, so the call fails instead. -/
theorem variant_preservation_cex :
    array_to_grpc_datadef (⟨[], [5]⟩ : NpArray Int) [] "ndarray" =
      .error .typeErrorIter0d := rfl

/-- C4 amended: for every array, names and variant hint, the REST codec
emits a Tensor-variant payload when the original datadef had the
`tensor` key and an NDArray-variant payload (never Tensor) otherwise —
including when neither variant was present; the protobuf-style codec
emits a Tensor message for the `"tensor"` hint, and for every other hint
(including `"ndarray"` and the default) emits an NDArray payload
provided the array has rank at least 1 (on rank-0 arrays that path
raises `TypeError` instead). -/
theorem variant_preservation_amended {α : Type} (arr : NpArray α)
    (names : List String) :
    (∀ orig : RestDataDef α, orig.tensor.isSome →
      ((array_to_rest_datadef arr names orig).tensor.isSome ∧
       (array_to_rest_datadef arr names orig).ndarray = none))
    ∧ (∀ orig : RestDataDef α, orig.tensor = none →
      ((array_to_rest_datadef arr names orig).tensor = none ∧
       (array_to_rest_datadef arr names orig).ndarray.isSome))
    ∧ array_to_grpc_datadef arr names "tensor" =
        .ok ⟨names, some (.tensor ⟨arr.shape, arr.values⟩)⟩
    ∧ (arr.shape ≠ [] → ∀ data_type, data_type ≠ "tensor" →
        array_to_grpc_datadef arr names data_type =
          .ok ⟨names, some (.ndarray (nestedListOf arr.shape arr.values))⟩) := by
  refine ⟨?_, ?_, ?_, ?_⟩
  · intro orig h
    simp [array_to_rest_datadef, h]
  · intro orig h
    have hfalse : orig.tensor.isSome = false := by simp [h]
    by_cases hnd : orig.ndarray.isSome <;>
      simp [array_to_rest_datadef, hfalse, hnd]
  · simp [array_to_grpc_datadef]
  · intro hsh data_type hdt
    have henc := array_to_list_value_eq_ok arr.shape arr.values hsh
    by_cases hnd : data_type = "ndarray" <;>
      simp [array_to_grpc_datadef, hdt, hnd, henc, Except.map]

/-- Witness for C4 amended: the REST tensor-hint case and the
protobuf-style default-hint case at a concrete rank-1 array. -/
theorem variant_preservation_amended_witness :
    ((array_to_rest_datadef (⟨[2], [7, 8]⟩ : NpArray Int) ["n"]
        ⟨[], some ⟨[], []⟩, none⟩).tensor.isSome ∧
     (array_to_rest_datadef (⟨[2], [7, 8]⟩ : NpArray Int) ["n"]
        ⟨[], some ⟨[], []⟩, none⟩).ndarray = none) ∧
    array_to_grpc_datadef (⟨[2], [7, 8]⟩ : NpArray Int) ["n"] "x" =
      .ok ⟨["n"], some (.ndarray (nestedListOf [2] [7, 8]))⟩ :=
  ⟨(variant_preservation_amended ⟨[2], [7, 8]⟩ ["n"]).1
      ⟨[], some ⟨[], []⟩, none⟩ rfl,
   (variant_preservation_amended ⟨[2], [7, 8]⟩ ["n"]).2.2.2
      (by decide) "x" (by decide)⟩

/-- Counterexample for C7 as stated: the rank-2 array of shape `[0, 2]`
(no elements) encodes to the empty top-level list, whose nesting depth
is 1, not 2 — with a zero outermost dimension the recursion never
reaches rank 1 and the depth falls short of the rank. -/
theorem ndarray_recursion_cex :
    array_to_list_value [0, 2] ([] : List Int) = .ok [] ∧
    lvDepth ([] : ListValue Int) ≠ ([0, 2] : List Nat).length :=
  ⟨rfl, by decide⟩

/-- C7 amended: the recursive NDArray encoder produces a flat list of
scalar values at rank 1, and at higher rank one nested list entry per
sub-array along the outermost axis, each holding the sub-array's
recursive encoding; for shape `[2,2,2]` the nesting depth is exactly 3
with the innermost lists holding the flat scalar runs; and for every
array of rank at least 1 all of whose dimensions are positive, the
encoding succeeds with nesting depth equal to the rank (for shapes with
a zero dimension before the last axis the recursion stops early and the
depth falls short of the rank). -/
theorem ndarray_recursion_amended :
    (∀ (α : Type) (n : Nat) (values : List α),
      array_to_list_value [n] values = .ok (values.map PbValue.num))
    ∧ (∀ (α : Type) (d e : Nat) (rest : List Nat) (values : List α),
      array_to_list_value (d :: e :: rest) values =
        .ok ((takeChunks d (listProd (e :: rest)) values).map
          (fun c => PbValue.lst (nestedListOf (e :: rest) c))) ∧
      (takeChunks d (listProd (e :: rest)) values).length = d)
    ∧ (∀ v0 v1 v2 v3 v4 v5 v6 v7 : Int,
      array_to_list_value [2, 2, 2] [v0, v1, v2, v3, v4, v5, v6, v7] =
        .ok [.lst [.lst [.num v0, .num v1], .lst [.num v2, .num v3]],
             .lst [.lst [.num v4, .num v5], .lst [.num v6, .num v7]]] ∧
      lvDepth ([.lst [.lst [.num v0, .num v1], .lst [.num v2, .num v3]],
                .lst [.lst [.num v4, .num v5], .lst [.num v6, .num v7]]] :
               ListValue Int) = 3)
    ∧ (∀ (α : Type) (shape : List Nat) (values : List α),
      shape ≠ [] → (∀ d ∈ shape, 0 < d) →
        ∃ lv, array_to_list_value shape values = .ok lv ∧
          lvDepth lv = shape.length) := by
  refine ⟨?_, ?_, ?_, ?_⟩
  · intro α n values
    rfl
  · intro α d e rest values
    exact ⟨rfl, takeChunks_length d (listProd (e :: rest)) values⟩
  · intro v0 v1 v2 v3 v4 v5 v6 v7
    exact ⟨rfl, rfl⟩
  · intro α shape values h hpos
    exact ⟨nestedListOf shape values, array_to_list_value_eq_ok shape values h,
      nestedListOf_depth shape h hpos values⟩

/-- Witness for C7 amended: the depth statement applied at shape
`[2, 3]` with no values. -/
theorem ndarray_recursion_amended_witness :
    ∃ lv, array_to_list_value [2, 3] ([] : List Int) = .ok lv ∧
      lvDepth lv = 2 :=
  ndarray_recursion_amended.2.2.2 Int [2, 3] [] (by decide) (by decide)

/-- With non-empty names the writer succeeds, and its output is the
fully assembled envelope over the three built vectors. -/
theorem NumpyArrayToSeldonRPC_eq {α : Type} (arr : NpArray α)
    (names : List String) (h : names ≠ []) :
    NumpyArrayToSeldonRPC arr names =
      .ok (finishWithSizeHeader
        ⟨SeldonMethodPREDICT, SeldonPayloadSeldonMessage,
         ⟨SeldonProtocolVersionV1, ⟨200, StatusValueSUCCESS⟩, DataDefaultData,
          ⟨buildVector names,
           ⟨buildVector arr.shape, buildVector arr.values⟩⟩⟩⟩) := by
  have hpos : 0 < names.length := List.length_pos.mpr h
  unfold NumpyArrayToSeldonRPC
  simp [hpos]

/-- C1: binary codec round trip — encoding the array of shape `[1,4]`
with values `[1,2,3,4]` and names `["a"]`, then decoding the produced
buffer, returns the identical shape and values (the values are carried
through untransformed) and names `["a"]`. -/
theorem binary_codec_roundtrip :
    (do
      let buf ← NumpyArrayToSeldonRPC (⟨[1, 4], [1, 2, 3, 4]⟩ : NpArray Int) ["a"]
      SeldonRPCToNumpyArray buf) =
    .ok (⟨[1, 4], [1, 2, 3, 4]⟩, ["a"]) := rfl

/-- C2: binary decoder guards — for every buffer, a protocol tag other
than V1 fails with the unsupported-protocol error; protocol V1 with a
data-kind tag other than DefaultData fails with the unsupported-kind
error; a successful decode is only possible when both tags match; and
both guard errors are distinct from the shape mismatch error. -/
theorem binary_decoder_guards {α : Type} (data : FBOutput α) :
    ((GetRootAsSeldonMessage data).protocol ≠ SeldonProtocolVersionV1 →
      SeldonRPCToNumpyArray data =
        .error (.unsupportedProtocolVersion (GetRootAsSeldonMessage data).protocol))
    ∧ ((GetRootAsSeldonMessage data).protocol = SeldonProtocolVersionV1 →
       (GetRootAsSeldonMessage data).dataType ≠ DataDefaultData →
      SeldonRPCToNumpyArray data =
        .error (.unsupportedDataKind (GetRootAsSeldonMessage data).dataType))
    ∧ (∀ res, SeldonRPCToNumpyArray data = .ok res →
        (GetRootAsSeldonMessage data).protocol = SeldonProtocolVersionV1 ∧
        (GetRootAsSeldonMessage data).dataType = DataDefaultData)
    ∧ (∀ p k, CodecError.unsupportedProtocolVersion p ≠ CodecError.shapeMismatch ∧
        CodecError.unsupportedDataKind k ≠ CodecError.shapeMismatch) := by
  refine ⟨?_, ?_, ?_, ?_⟩
  · intro h
    simp [SeldonRPCToNumpyArray, h]
  · intro h1 h2
    simp [SeldonRPCToNumpyArray, h1, h2]
  · intro res hres
    by_cases hp : (GetRootAsSeldonMessage data).protocol = SeldonProtocolVersionV1
    · by_cases hk : (GetRootAsSeldonMessage data).dataType = DataDefaultData
      · exact ⟨hp, hk⟩
      · simp [SeldonRPCToNumpyArray, hp, hk] at hres
    · simp [SeldonRPCToNumpyArray, hp] at hres
  · intro p k
    exact ⟨fun h => CodecError.noConfusion h, fun h => CodecError.noConfusion h⟩

/-- Witness for C2: the guards fire on concrete buffers with a wrong
protocol tag (99) and a wrong data-kind tag (7). -/
theorem binary_decoder_guards_witness :
    SeldonRPCToNumpyArray
      (⟨[0, 0, 0, 0], 0, ⟨0, 1, ⟨99, ⟨200, 0⟩, 1, ⟨["a"], ⟨[1], [5]⟩⟩⟩⟩⟩ :
        FBOutput Int) =
      .error (.unsupportedProtocolVersion 99) ∧
    SeldonRPCToNumpyArray
      (⟨[0, 0, 0, 0], 0, ⟨0, 1, ⟨1, ⟨200, 0⟩, 7, ⟨["a"], ⟨[1], [5]⟩⟩⟩⟩⟩ :
        FBOutput Int) =
      .error (.unsupportedDataKind 7) :=
  ⟨(binary_decoder_guards _).1 (by decide),
   (binary_decoder_guards _).2.1 (by decide) (by decide)⟩

/-- C8: binary encoder envelope contents — for every array and non-empty
names the writer succeeds, its envelope carries a Status table with
code 200 and the SUCCESS tag, a SeldonMessage table with the V1 protocol
tag and the DefaultData kind tag, a SeldonRPC root with the PREDICT
method tag and the SeldonMessage payload-kind tag, and the buffer is
finished with a 4-byte little-endian size header holding the total
message length. -/
theorem binary_encoder_envelope {α : Type} (arr : NpArray α)
    (names : List String) (h : names ≠ []) :
    ∃ out, NumpyArrayToSeldonRPC arr names = .ok out ∧
      out.msg.message.status.code = 200 ∧
      out.msg.message.status.statusValue = StatusValueSUCCESS ∧
      out.msg.message.protocol = SeldonProtocolVersionV1 ∧
      out.msg.message.dataType = DataDefaultData ∧
      out.msg.method = SeldonMethodPREDICT ∧
      out.msg.messageType = SeldonPayloadSeldonMessage ∧
      out.sizeHeader = leBytes4 out.msgLen ∧
      out.sizeHeader.length = 4 ∧
      (out.msgLen < 4294967296 → fromLEBytes4 out.sizeHeader = out.msgLen) :=
  ⟨_, NumpyArrayToSeldonRPC_eq arr names h, rfl, rfl, rfl, rfl, rfl, rfl,
    rfl, rfl, fun hlt => fromLEBytes4_leBytes4 _ hlt⟩

/-- Witness for C8: the envelope statement at a concrete array and
names. -/
theorem binary_encoder_envelope_witness :
    ∃ out, NumpyArrayToSeldonRPC (⟨[2], [7, 8]⟩ : NpArray Int) ["a"] = .ok out ∧
      out.msg.message.status.code = 200 ∧
      out.msg.message.status.statusValue = StatusValueSUCCESS ∧
      out.msg.message.protocol = SeldonProtocolVersionV1 ∧
      out.msg.message.dataType = DataDefaultData ∧
      out.msg.method = SeldonMethodPREDICT ∧
      out.msg.messageType = SeldonPayloadSeldonMessage ∧
      out.sizeHeader = leBytes4 out.msgLen ∧
      out.sizeHeader.length = 4 ∧
      (out.msgLen < 4294967296 → fromLEBytes4 out.sizeHeader = out.msgLen) :=
  binary_encoder_envelope ⟨[2], [7, 8]⟩ ["a"] (by decide)

/-- C9: reverse-append vector order — the writer's loops prepend the
names, shape and value vector elements in reverse index order relative
to logical order, and consequently each finished vector reads back from
the buffer in the original logical input order. -/
theorem reverse_append_order {α : Type} (arr : NpArray α)
    (names : List String) (h : names ≠ []) :
    prependTrace names = names.reverse ∧
    prependTrace arr.shape = arr.shape.reverse ∧
    prependTrace arr.values = arr.values.reverse ∧
    ∃ out, NumpyArrayToSeldonRPC arr names = .ok out ∧
      out.msg.message.data.names = names ∧
      out.msg.message.data.tensor.shape = arr.shape ∧
      out.msg.message.data.tensor.values = arr.values :=
  ⟨prependTrace_eq_reverse names, prependTrace_eq_reverse arr.shape,
   prependTrace_eq_reverse arr.values,
   _, NumpyArrayToSeldonRPC_eq arr names h,
   buildVector_eq names, buildVector_eq arr.shape, buildVector_eq arr.values⟩

/-- Witness for C9: the vector-order statement at a concrete array and
names. -/
theorem reverse_append_order_witness :
    prependTrace ["a", "b"] = ["b", "a"] ∧
    prependTrace ([3, 2] : List Nat) = [2, 3] ∧
    prependTrace ([4, 5, 6, 7, 8, 9] : List Int) = [9, 8, 7, 6, 5, 4] ∧
    ∃ out, NumpyArrayToSeldonRPC
        (⟨[3, 2], [4, 5, 6, 7, 8, 9]⟩ : NpArray Int) ["a", "b"] = .ok out ∧
      out.msg.message.data.names = ["a", "b"] ∧
      out.msg.message.data.tensor.shape = [3, 2] ∧
      out.msg.message.data.tensor.values = [4, 5, 6, 7, 8, 9] :=
  reverse_append_order ⟨[3, 2], [4, 5, 6, 7, 8, 9]⟩ ["a", "b"] (by decide)

/-- C10: implicit precondition of the binary writer — with an empty
names sequence the `namesOffset` local is never assigned but is used
unconditionally when assembling the DefaultData table, so encoding fails
with a `NameError`; with any non-empty names the writer returns a
buffer. -/
theorem encoder_requires_names {α : Type} (arr : NpArray α) :
    NumpyArrayToSeldonRPC arr [] = .error .nameErrorNamesOffset ∧
    ∀ names : List String, names ≠ [] →
      ∃ out, NumpyArrayToSeldonRPC arr names = .ok out :=
  ⟨rfl, fun names h => ⟨_, NumpyArrayToSeldonRPC_eq arr names h⟩⟩

/-- Witness for C10: the writer fails on empty names and succeeds on
`["a"]` for a concrete array. -/
theorem encoder_requires_names_witness :
    NumpyArrayToSeldonRPC (⟨[1], [3]⟩ : NpArray Int) [] =
      .error .nameErrorNamesOffset ∧
    ∃ out, NumpyArrayToSeldonRPC (⟨[1], [3]⟩ : NpArray Int) ["a"] = .ok out :=
  ⟨(encoder_requires_names ⟨[1], [3]⟩).1,
   (encoder_requires_names ⟨[1], [3]⟩).2 ["a"] (by decide)⟩
